import Mathlib

/-!
# A verification development for the dlite core

This file gives a shallow embedding, in Lean 4, of the core of the dlite
C library (identity / UUID handling, metadata urls, entities, instances,
collections and the datamodel copy utilities) and proves properties of
the embedded definitions.

C strings (NUL-terminated `char` buffers) are modelled as lists of bytes
(`List Nat`, one entry per byte before the terminating NUL).  Fallible
functions return `Option`/sum-like result types; the out-of-scope
helper libraries (`utils/uuid.h`, `utils/uuid4.h`, the triple store) are
modelled from their documented interfaces.  Instances are modelled with
the tagged-variant value representation (a slot per header field,
dimension and property) rather than raw byte offsets; the inline-scalar
versus pointer-to-heap-array distinction of the C layout is preserved in
the `DLitePropVal` type.
-/

namespace DLite

/-- A C string: the list of byte values of the buffer before the NUL. -/

abbrev CStr := List Nat

/-- Byte list of a Lean string literal (ASCII code points). -/

def bytes (s : String) : CStr := s.data.map Char.toNat

/-- The byte value of the slash character. -/

def slashB : Nat := 47

/-- Model of C `tolower` in the C locale: ASCII uppercase maps down by 32. -/

def tolowerByte (b : Nat) : Nat := if 65 ≤ b ∧ b ≤ 90 then b + 32 else b

/-- The lowercasing loop closing `getuuidn`: `buff[i] = tolower(buff[i])`
for every `i < n` (with `n = UUID_LEN`); bytes past `n` are untouched. -/

def tolowerN (n : Nat) (s : CStr) : CStr :=
  (s.take n).map tolowerByte ++ s.drop n

/-- Whether a byte is an ASCII hexadecimal digit. -/

def isHexByte (b : Nat) : Bool :=
  (48 ≤ b && b ≤ 57) || (97 ≤ b && b ≤ 102) || (65 ≤ b && b ≤ 70)

/-- UUID_LEN from getuuid.h: a canonical UUID is 36 characters long. -/

def UUID_LEN : Nat := 36

/-- Whether the byte at position `i` of a canonical UUID string is
acceptable: a hyphen at positions 8, 13, 18 and 23, a hex digit
elsewhere. -/

def uuidByteOk (i b : Nat) : Bool :=
  if i = 8 || i = 13 || i = 18 || i = 23 then b = 45 else isHexByte b

/-- Modelled from the spec: `uuid_from_string` ships in `utils/uuid.h`,
which is not part of these sources.  Per the spec (sections 4.1 and 6) an
id is "already a valid UUID string" when it has 36 characters with the
correct hyphens and hex digits (`8-4-4-4-12`).  Returns `true` when the
string parses as a canonical UUID. -/

def uuid_from_string_ok (s : CStr) : Bool :=
  s.length = UUID_LEN &&
    (List.range UUID_LEN).all (fun i => uuidByteOk i (s.getD i 0))

/-- Modelled from the spec: environment bundling the two UUID generators
from `utils/uuid4.h` and `utils/uuid.h`, which are not part of these
sources.  `v4` is the random UUID written by `uuid4_generate` and `v4ok`
whether generation succeeded (RNG failure); `sha1 s` is the version-5
SHA-1 UUID that `uuid_create_sha1_from_name` followed by
`uuid_as_string` produces for name `s` under the DNS namespace — a
deterministic function of `s`. -/

structure UuidEnv where
  v4 : CStr
  v4ok : Bool
  sha1 : CStr → CStr

/-- Shallow embedding of `getuuidn` (src/src/getuuid.c).  `id` is the
nullable C string argument (its length is passed separately in C; from
`getuuid` it is always `strlen(id)`, so a zero length and an empty
string coincide).  Returns the version tag and the buffer contents. -/

def getuuidn (env : UuidEnv) (id0 : Option CStr) : Int × CStr :=
  let id : Option CStr :=
    match id0 with
    | some s => if s.length = 0 then none else some s
    | none => none
  match id with
  | none =>
      let version : Int := if env.v4ok then 4 else -1
      (version, tolowerN UUID_LEN env.v4)
  | some s =>
      if uuid_from_string_ok s then
        (0, tolowerN UUID_LEN (s.take UUID_LEN))
      else
        (5, tolowerN UUID_LEN (env.sha1 s))

/-- Shallow embedding of `dlite_get_uuid` (src/src/dlite.c), which simply
forwards to `getuuid` = `getuuidn` with `len = strlen(id)`. -/

def dlite_get_uuid (env : UuidEnv) (id : Option CStr) : Int × CStr :=
  getuuidn env id

/-- A concrete UUID environment used to instantiate `getuuid_correct`:
the RNG succeeds and the SHA-1 helper returns a fixed canonical UUID
(with uppercase hex, to exercise the lowercasing). -/

def uuidEnvC : UuidEnv where
  v4 := bytes "f81d4fae-7dec-41d0-a765-00a0c91e6bf6"
  v4ok := true
  sha1 := fun _ => bytes "8C942973-66A3-5BE1-A75A-14C2D0A6F6A8"

/-! ## Metadata urls (src/src/dlite.c) -/

/-- Shallow embedding of `dlite_join_metadata`: builds
`namespace/version/name` (the C uses `snprintf("%s/%s/%s", ...)`). -/

def dlite_join_metadata (name version nspace : CStr) : CStr :=
  nspace ++ (slashB :: (version ++ (slashB :: name)))

/-- Index of the last slash in the buffer — `strrchr(metadata, '/')`
expressed as an index, `none` when the byte does not occur. -/

def lastSlashIdx : CStr → Option Nat
  | [] => none
  | b :: rest =>
    match lastSlashIdx rest with
    | some i => some (i + 1)
    | none => if b = slashB then some 0 else none

/-- The backwards scan of `dlite_split_metadata`:
`q = p-1; while (*q != '/' && q > metadata) q--;`.  The argument is the
current index `q`; the scan stops at a slash or at index 0. -/

def scanBack (s : CStr) : Nat → Nat
  | 0 => 0
  | q + 1 => if s.getD (q + 1) 0 = slashB then q + 1 else scanBack s q

/-- Result of `dlite_split_metadata` when all three output arguments are
requested: `ok` models a 0 return with the three extracted strings,
`err` the non-zero return through `FAIL`, and `crash` the undefined
behaviour reached when `p` is the first byte — the separator checks are
passed with `q = metadata - 1`, and the namespace extraction computes
`size = 0` and calls `memcpy` with `size - 1` (negative, converted to a
huge `size_t`). -/

inductive SplitResult where
  | ok (name version nspace : CStr)
  | err
  | crash
deriving DecidableEq

/-- Shallow embedding of `dlite_split_metadata`: `p` is the last slash,
`q` the result of the backwards scan from `p-1`; the function fails when
there is no slash or when the scan ends at the first byte, and otherwise
extracts `name` (after `p`), `version` (the `p-q-1` bytes after `q`) and
`namespace` (the `q` bytes before `q`). -/

def dlite_split_metadata (metadata : CStr) : SplitResult :=
  match lastSlashIdx metadata with
  | none => .err
  | some p =>
    if p = 0 then .crash
    else
      let q := scanBack metadata (p - 1)
      if q = 0 then .err
      else .ok (metadata.drop (p + 1))
              ((metadata.drop (q + 1)).take (p - 1 - q))
              (metadata.take q)

/-! ## Entities and instances (dlite-entity.c)

Instances are modelled at slot level, as the spec's design notes
prescribe for a reimplementation: one tagged value per property
(`Scalar` stored inline versus pointer-to-heap `Array`), the uuid/uri
header fields, and the dimension-size array.  Byte offsets inside the
single C memory block (`dimoffset`, `propoffsets`) become positions in
these lists; `calloc`'s zero-initialisation of the block becomes
explicit zero byte lists. -/

/-- The DLiteType enumeration (dlite.h): blob, bool, int, uint, float,
fixed string, string pointer. -/

inductive DLiteType where
  | dliteBlob
  | dliteBool
  | dliteInt
  | dliteUInt
  | dliteFloat
  | dliteString
  | dliteStringPtr
deriving DecidableEq

/-- A dimension of an entity: `name` and `description` (char pointers in
C; the description may be NULL). -/

structure DLiteDimension where
  name : CStr
  description : Option CStr
deriving DecidableEq

/-- A property of an entity.  `dims` is the list of indices into the
owning entity's dimension list (the C `dims[]` array of length `ndims`;
`ndims = dims.length`, and an `ndims = 0` property has a NULL `dims`
pointer, modelled by the empty list). -/

structure DLiteProperty where
  name : CStr
  type : DLiteType
  size : Nat
  dims : List Nat
  description : Option CStr
  unit : Option CStr
deriving DecidableEq

/-- An entity (DLiteEntity / DLiteMeta head).  `ndimensions` and
`nproperties` are the lengths of the two lists; the derived layout
fields (`size`, `dimoffset`, `propoffsets`) are byte offsets in C and
are represented by positions in the instance's slot lists. -/

structure DLiteEntity where
  uuid : CStr
  uri : Option CStr
  description : Option CStr
  dimensions : List DLiteDimension
  properties : List DLiteProperty
  refcount : Int
deriving DecidableEq

/-- The value stored in one property slot of an instance: an `ndims = 0`
property keeps its `size` bytes inline in the instance block; a
dimensional property's slot holds an owning pointer to a heap buffer of
`nmemb * size` bytes. -/

inductive DLitePropVal where
  | scalar (bytes : CStr)
  | array (bytes : CStr)
deriving DecidableEq

/-- An instance: header (uuid, optional uri, meta pointer), the
dimension-size slots and the property slots. -/

structure DLiteInstance where
  uuid : CStr
  uri : Option CStr
  meta : DLiteEntity
  dims : List Nat
  propvals : List DLitePropVal
deriving DecidableEq

/-- The member count of a dimensional property at creation:
`nmemb = 1; for (j = 0; j < p->ndims; j++) nmemb *= dims[p->dims[j]];`
reading the caller's `dims` argument. -/

def propNmemb (dims : List Nat) (p : DLiteProperty) : Nat :=
  p.dims.foldl (fun acc j => acc * dims.getD j 0) 1

/-- Shallow embedding of `dlite_instance_create`: calloc a zeroed block,
write the uuid derived from `id` (uri kept when the uuid is version 5),
copy the first `ndimensions` entries of `dims` into the dimension
slots, allocate a zeroed heap array of `nmemb * p.size` bytes for every
dimensional property, and increment the entity refcount.  Allocation is
modelled as infallible, so the only failure is a negative uuid version;
the instance's `meta` field records the entity passed in, and the
second component of the result is that entity with its refcount
incremented by `dlite_entity_incref`. -/

def dlite_instance_create (meta : DLiteEntity) (dims : List Nat)
    (id : Option CStr) (env : UuidEnv) : Option (DLiteInstance × DLiteEntity) :=
  let uv := dlite_get_uuid env id
  if uv.1 < 0 then none
  else
    some ({ uuid := uv.2
            uri := if uv.1 = 5 then id else none
            meta := meta
            dims := dims.take meta.dimensions.length
            propvals := meta.properties.map (fun p =>
              if p.dims ≠ [] then
                DLitePropVal.array (List.replicate (propNmemb dims p * p.size) 0)
              else
                DLitePropVal.scalar (List.replicate p.size 0)) },
          { meta with refcount := meta.refcount + 1 })

/-- Shallow embedding of `dlite_meta_decref`: decrement the refcount
and free the metadata when it reaches zero.  Returns the decremented
count and the surviving entity (`none` when it was freed). -/

def dlite_meta_decref (meta : DLiteEntity) : Int × Option DLiteEntity :=
  let rc := meta.refcount - 1
  if rc ≤ 0 then (rc, none) else (rc, some { meta with refcount := rc })

/-- Shallow embedding of `dlite_instance_free`: the property buffers and
owned strings are released (no value-level effect in the slot model)
and the metadata refcount is decremented through `dlite_meta_decref`.
Returns that call's result. -/

def dlite_instance_free (_inst : DLiteInstance) (meta : DLiteEntity) :
    Int × Option DLiteEntity :=
  dlite_meta_decref meta

/-- A small concrete entity: two dimensions, one scalar int property and
one float array property over both dimensions. -/

def entC : DLiteEntity where
  uuid := bytes "00000000-0000-0000-0000-000000000000"
  uri := some (bytes "meta/0.3/entity")
  description := none
  dimensions := [{ name := bytes "na", description := none },
                 { name := bytes "nb", description := none }]
  properties := [{ name := bytes "x", type := DLiteType.dliteInt, size := 4,
                   dims := [], description := none, unit := none },
                 { name := bytes "arr", type := DLiteType.dliteFloat, size := 8,
                   dims := [0, 1], description := none, unit := none }]
  refcount := 1

/-- The instance obtained by creating an `entC` instance with dims
(3, 2) and id "abc" in the concrete UUID environment. -/

def instC : DLiteInstance where
  uuid := bytes "8c942973-66a3-5be1-a75a-14c2d0a6f6a8"
  uri := some (bytes "abc")
  meta := entC
  dims := [3, 2]
  propvals := [DLitePropVal.scalar (List.replicate 4 0),
               DLitePropVal.array (List.replicate 48 0)]

/-! ### Dimension-size accessors (src/unnamed/part_002) -/

/-- Shallow embedding of `dlite_meta_get_dimension_index`: linear scan
of the dimension names, -1 (with a diagnostic) when absent. -/

def dlite_meta_get_dimension_index (meta : DLiteEntity) (name : CStr) : Int :=
  match meta.dimensions.findIdx? (fun d => d.name == name) with
  | some i => (i : Int)
  | none => -1

/-- Shallow embedding of `dlite_instance_get_dimension_size_by_index`:
note that the bound check in the source compares `i` against
`nproperties` (not `ndimensions`) before reading `dimensions[i]`. -/

def dlite_instance_get_dimension_size_by_index (inst : DLiteInstance) (i : Nat) : Int :=
  if i ≥ inst.meta.properties.length then -1
  else (inst.dims.getD i 0 : Int)

/-- Shallow embedding of `dlite_instance_get_dimension_size`: resolve
the dimension index by name, then the same (mis-)bound check against
`nproperties` before reading `dimensions[i]`. -/

def dlite_instance_get_dimension_size (inst : DLiteInstance) (name : CStr) : Int :=
  let i := dlite_meta_get_dimension_index inst.meta name
  if i < 0 then -1
  else if i ≥ (inst.meta.properties.length : Int) then -1
  else (inst.dims.getD i.toNat 0 : Int)

/-- A two-dimension, one-property entity exposing the dimension-size
accessor bug: any dimension index at or past `nproperties` is rejected. -/

def entC7 : DLiteEntity where
  uuid := bytes "00000000-0000-0000-0000-000000000000"
  uri := some (bytes "meta/0.1/two-dims")
  description := none
  dimensions := [{ name := bytes "na", description := none },
                 { name := bytes "nb", description := none }]
  properties := [{ name := bytes "x", type := DLiteType.dliteInt, size := 4,
                   dims := [], description := none, unit := none }]
  refcount := 1

/-! ### Entity load (src/unnamed/part_002, dlite_entity_load) -/

/-- Result of `dlite_entity_load`: the driver-capability error, the
"id is not an UUID or a string that we can generate an uuid from"
error, or dispatch to the driver's `getEntity` with the derived uuid. -/

inductive EntityLoadResult where
  | errNoGetEntity
  | errBadId
  | dispatched (uuid : CStr)
deriving DecidableEq

/-- Shallow embedding of `dlite_entity_load`: fail when the driver has
no `getEntity`; otherwise compute the uuid version of `id` and fail
when `uuidver != 0 || uuidver != 5`, else dispatch. -/

def dlite_entity_load (hasGetEntity : Bool) (env : UuidEnv) (id : Option CStr) :
    EntityLoadResult :=
  if ¬hasGetEntity then EntityLoadResult.errNoGetEntity
  else
    let uv := dlite_get_uuid env id
    if uv.1 ≠ 0 ∨ uv.1 ≠ 5 then EntityLoadResult.errBadId
    else EntityLoadResult.dispatched uv.2

/-! ### Ownership in dlite_entity_create (src/unnamed/part_002)

For the memory-sharing claim the caller-visible strings and arrays are
modelled at pointer level: a `CRef` is a `char *` seen as an address
paired with the pointed-to contents, and each allocation (`strdup`,
`malloc`) hands out a fresh address from a counter.  The entity returned
by `dlite_entity_create` shares memory with the caller exactly where a
caller address survives into it. -/

/-- A C string pointer: address plus pointed-to bytes. -/

structure CRef where
  ptr : Nat
  val : CStr
deriving DecidableEq

/-- Pointer-level view of a caller-supplied DLiteDimension: the struct
holds `name` and `description` char pointers. -/

structure OwnDimension where
  name : CRef
  description : Option CRef
deriving DecidableEq

/-- Pointer-level view of a DLiteProperty: `dimsPtr` is the address of
the `int dims[]` array (0 models NULL, the `ndims = 0` case) and
`dimsVal` its contents; `ndims = dimsVal.length`. -/

structure OwnProperty where
  name : CRef
  type : DLiteType
  size : Nat
  dimsPtr : Nat
  dimsVal : List Nat
  description : Option CRef
  unit : Option CRef
deriving DecidableEq

/-- Model of `strdup`: allocate a fresh address holding a copy of the bytes. -/

def strdupC (c : Nat) (r : CRef) : CRef × Nat := (⟨c, r.val⟩, c + 1)

/-- Model of `strdup` guarded by a NULL check (`if (q->description) ...`). -/

def strdupOptC (c : Nat) : Option CRef → Option CRef × Nat
  | none => (none, c)
  | some r => (some ⟨c, r.val⟩, c + 1)

/-- The per-property copying loop body of `dlite_entity_create`:
`memcpy(p, q, sizeof(DLiteProperty))`, then `p->name = strdup(q->name)`;
if `p->ndims` a fresh `malloc`ed copy of the `dims[]` array, else a NULL
`dims`; then `strdup` of description and unit when non-NULL. -/

def copyProp (c : Nat) (q : OwnProperty) : OwnProperty × Nat :=
  let (nm, c1) := strdupC c q.name
  let (dp, c2) := if q.dimsVal.length ≠ 0 then (c1, c1 + 1) else (0, c1)
  let (ds, c3) := strdupOptC c2 q.description
  let (un, c4) := strdupOptC c3 q.unit
  ({ name := nm, type := q.type, size := q.size,
     dimsPtr := dp, dimsVal := q.dimsVal,
     description := ds, unit := un }, c4)

/-- The property loop of `dlite_entity_create` over the whole caller
array, threading the allocator counter. -/

def copyProps (c : Nat) : List OwnProperty → List OwnProperty × Nat
  | [] => ([], c)
  | q :: rest =>
    let pc := copyProp c q
    let rec' := copyProps pc.2 rest
    (pc.1 :: rec'.1, rec'.2)

/-- The copying performed by `dlite_entity_create` on its `dimensions`
and `properties` arguments (allocator counter starting at `c0`): the
dimension array is freshly `calloc`ed and the DLiteDimension structs
`memcpy`ed into it bitwise — their embedded `name`/`description`
pointers are the caller's — while the properties go through the
deep-copying loop. -/

def dlite_entity_create_copies (dims : List OwnDimension)
    (props : List OwnProperty) (c0 : Nat) :
    List OwnDimension × List OwnProperty :=
  (dims, (copyProps c0 props).1)

/-- The addresses a property struct references (NULL excluded). -/

def propPtrs (p : OwnProperty) : List Nat :=
  [p.name.ptr] ++ (if p.dimsPtr ≠ 0 then [p.dimsPtr] else []) ++
    (match p.description with | some r => [r.ptr] | none => []) ++
    (match p.unit with | some r => [r.ptr] | none => [])

/-- The addresses a dimension struct references. -/

def dimPtrs (d : OwnDimension) : List Nat :=
  [d.name.ptr] ++ (match d.description with | some r => [r.ptr] | none => [])

/-- All addresses reachable from the caller-supplied arrays. -/

def callerPtrs (dims : List OwnDimension) (props : List OwnProperty) : List Nat :=
  dims.foldr (fun d acc => dimPtrs d ++ acc) [] ++
    props.foldr (fun p acc => propPtrs p ++ acc) []

/-- The pointer-independent content of a property. -/

def propVals (p : OwnProperty) :
    CStr × List Nat × Option CStr × Option CStr × DLiteType × Nat :=
  (p.name.val, p.dimsVal, p.description.map CRef.val, p.unit.map CRef.val,
   p.type, p.size)

/-! ## Collections (src/src/dlite-collection.c)

The triple store behind collections is out of scope for the spec and
its implementation is not among these sources; it is modelled from the
interface the spec describes (create, add, remove with wildcards
returning a count, remove_by_id, stateful find).  Each stored triplet
carries an id, assigned from a counter at insertion. -/

/-- A stored triplet: subject, predicate, object, and the id used by
`triplestore_remove_by_id`. -/

structure XTriplet where
  s : CStr
  p : CStr
  o : CStr
  id : CStr
deriving DecidableEq

/-- Modelled from the spec: the triple store — the list of stored
triplets plus the counter from which fresh triplet ids are minted. -/

structure TripleStore where
  triplets : List XTriplet
  counter : Nat
deriving DecidableEq

/-- Decimal byte string of a number (used for fresh triplet ids). -/

def natBytes (n : Nat) : CStr := (Nat.toDigits 10 n).map Char.toNat

/-- Modelled from the spec: `triplestore_create` returns an empty store. -/

def triplestore_create : TripleStore := { triplets := [], counter := 0 }

/-- A wildcard match: a NULL pattern matches anything. -/

def tmatch (pat : Option CStr) (x : CStr) : Bool :=
  match pat with
  | none => true
  | some y => x == y

/-- Whether a triplet matches an (s, p, o) pattern with NULL wildcards. -/

def tripletMatches (s p o : Option CStr) (t : XTriplet) : Bool :=
  tmatch s t.s && tmatch p t.p && tmatch o t.o

/-- Modelled from the spec: `triplestore_add` appends a triplet with a
fresh id. -/

def triplestore_add (st : TripleStore) (s p o : CStr) : TripleStore :=
  { triplets := st.triplets ++ [{ s := s, p := p, o := o, id := natBytes st.counter }]
    counter := st.counter + 1 }

/-- Modelled from the spec: `triplestore_remove` removes every triplet
matching the pattern and returns the new store and the removal count. -/

def triplestore_remove (st : TripleStore) (s p o : Option CStr) :
    TripleStore × Nat :=
  ({ st with triplets := st.triplets.filter (fun t => !tripletMatches s p o t) },
   (st.triplets.filter (fun t => tripletMatches s p o t)).length)

/-- Modelled from the spec: `triplestore_remove_by_id` removes the
triplets whose id equals the given one. -/

def triplestore_remove_by_id (st : TripleStore) (id : CStr) : TripleStore :=
  { st with triplets := st.triplets.filter (fun t => !(t.id == id)) }

/-- Modelled from the spec: the stateful `triplestore_find` — scan the
triplet array from index `i` and return the next matching triplet
together with the state index just past it. -/

def tfindFrom (l : List XTriplet) (s p o : Option CStr) (i : Nat) :
    Option (Nat × XTriplet) :=
  if h : i < l.length then
    if tripletMatches s p o l[i] then some (i + 1, l[i])
    else tfindFrom l s p o (i + 1)
  else none
termination_by l.length - i
decreasing_by omega

/-- A collection: header (uuid, optional uri) plus its triple store
(the `ndims`/`dimnames`/`dimsizes` fields play no role in the claims
and the `meta` pointer is always NULL in `dlite_collection_create`). -/

structure DLiteCollection where
  uuid : CStr
  uri : Option CStr
  store : TripleStore
deriving DecidableEq

/-- Shallow embedding of `dlite_collection_create`: zeroed header, uuid
from `id` (uri kept on a version-5 uuid), fresh triple store. -/

def dlite_collection_create (id : Option CStr) (env : UuidEnv) :
    Option DLiteCollection :=
  let uv := dlite_get_uuid env id
  if uv.1 < 0 then none
  else some { uuid := uv.2
              uri := if uv.1 = 5 then id else none
              store := triplestore_create }

/-- Shallow embedding of `dlite_collection_add_relation`. -/

def dlite_collection_add_relation (coll : DLiteCollection) (s p o : CStr) :
    DLiteCollection :=
  { coll with store := triplestore_add coll.store s p o }

/-- Shallow embedding of `dlite_collection_remove_relations`: returns
the updated collection and the number of removed relations. -/

def dlite_collection_remove_relations (coll : DLiteCollection)
    (s p o : Option CStr) : DLiteCollection × Nat :=
  let r := triplestore_remove coll.store s p o
  ({ coll with store := r.1 }, r.2)

/-- The part of an instance `dlite_collection_add` reads: the uuid and
the metadata uri (`none` models a NULL `inst->meta`). -/

structure DLiteInstanceHead where
  uuid : CStr
  metaUri : Option CStr
deriving DecidableEq

/-- Shallow embedding of `dlite_collection_add`: error (`none`) when the
instance has no metadata; otherwise add the `_is-a`/`_has-uuid`/
`_has-meta` triples for the label. -/

def dlite_collection_add (coll : DLiteCollection) (label : CStr)
    (inst : DLiteInstanceHead) : Option DLiteCollection :=
  match inst.metaUri with
  | none => none
  | some muri =>
      let c1 := dlite_collection_add_relation coll label (bytes "_is-a") (bytes "Instance")
      let c2 := dlite_collection_add_relation c1 label (bytes "_has-uuid") inst.uuid
      let c3 := dlite_collection_add_relation c2 label (bytes "_has-meta") muri
      some c3

/-- The `_has-dimmap` loop of `dlite_collection_remove`: iterate the
stateful find over `(label, "_has-dimmap", *)` and remove, by id, the
triplet each match's object refers to.  Fuelled recursion (the fuel is
instantiated above the store size). -/

def dimmapLoop (label : CStr) : Nat → TripleStore → Nat → TripleStore
  | 0, st, _ => st
  | fuel + 1, st, i =>
      match tfindFrom st.triplets (some label) (some (bytes "_has-dimmap")) none i with
      | none => st
      | some (j, t) => dimmapLoop label fuel (triplestore_remove_by_id st t.o) j

/-- Shallow embedding of `dlite_collection_remove`: remove the
`(label, _is-a, Instance)` marker; when nothing matched return 1 with
the store as the (no-op) removal left it; otherwise run the dimmap
loop, clear the `_has-uuid`/`_has-meta`/`_has-dimmap` triples of the
label and return 0. -/

def dlite_collection_remove (coll : DLiteCollection) (label : CStr) :
    Nat × DLiteCollection :=
  let r1 := dlite_collection_remove_relations coll (some label)
    (some (bytes "_is-a")) (some (bytes "Instance"))
  if r1.2 > 0 then
    let st2 := dimmapLoop label (r1.1.store.triplets.length + 1) r1.1.store 0
    let c2 : DLiteCollection := { r1.1 with store := st2 }
    let c3 := (dlite_collection_remove_relations c2 (some label)
      (some (bytes "_has-uuid")) none).1
    let c4 := (dlite_collection_remove_relations c3 (some label)
      (some (bytes "_has-meta")) none).1
    let c5 := (dlite_collection_remove_relations c4 (some label)
      (some (bytes "_has-dimmap")) none).1
    (0, c5)
  else (1, r1.1)

/-! ## Datamodel copy utilities (src/unnamed/part_004)

`dlite_copy_to_flat` / `dlite_copy_to_nested` walk a rank-`ndims`
pointer-to-pointer array: `ndims` levels of pointer arrays, the
innermost holding pointers to the `size`-byte elements.  The nested
array is modelled as the `NArr` tree; the walking pointer `p` stays in
sync with the odometer `ind` (it points at the innermost array selected
by `ind[0..ndims-2]`, at offset `ind[ndims-1]`), so a read/write through
`p` is an access at path `ind`.  Undefined behaviour (a dereference
outside the structure, or through a pointer reconstructed from the flat
data buffer) is modelled as `none`. -/

/-- A nested pointer-to-pointer array: `ptrs` is an innermost array of
pointers to elements, `arr` an array of pointers to sub-arrays. -/

inductive NArr (α : Type) where
  | ptrs (elems : List α)
  | arr (children : List (NArr α))

/-- Read the element at a full index path (descend `ndims - 1` pointer
levels, then index the innermost pointer array). -/

def NArr.getPath {α : Type} : List Nat → NArr α → Option α
  | [i], NArr.ptrs es => es[i]?
  | i :: rest, NArr.arr cs =>
      match cs[i]? with
      | some c => NArr.getPath rest c
      | none => none
  | _, _ => none

/-- Write the element at a full index path. -/

def NArr.setPath {α : Type} : List Nat → NArr α → α → Option (NArr α)
  | [i], NArr.ptrs es, e =>
      if i < es.length then some (NArr.ptrs (es.set i e)) else none
  | i :: rest, NArr.arr cs, e =>
      match cs[i]? with
      | some c =>
          match NArr.setPath rest c e with
          | some c2 => some (NArr.arr (cs.set i c2))
          | none => none
      | none => none
  | _, _, _ => none

/-- The count `ntot`: the element count `for (i = 0; i < ndims; i++) ntot *= dims[i]`
(`dims` non-NULL). -/

def dimsProd (dims : List Nat) : Nat := dims.foldl (fun a d => a * d) 1

/-- One odometer step on the reversed index/dimension lists:
`++ind[last]`, wrapping to 0 and carrying towards the front as in the
carry loop of both copy functions.  Returns the new reversed index list
and whether `ind[ndims-1]` wrapped (the condition under which the C
recomputes the walking pointer). -/

def odoIncRev : List Nat → List Nat → List Nat
  | i :: is, d :: ds =>
      if i + 1 < d then (i + 1) :: is
      else 0 :: odoIncRev is ds
  | is, _ => is

/-- The odometer step `++ind[ndims-1]` with carry, in index order. -/

def odoInc (dims ind : List Nat) : List Nat :=
  (odoIncRev ind.reverse dims.reverse).reverse

/-- Whether `++ind[ndims-1] >= dims[ndims-1]`, i.e. the innermost index
wraps on this step. -/

def odoWraps (dims ind : List Nat) : Bool :=
  match ind.reverse, dims.reverse with
  | i :: _, d :: _ => i + 1 ≥ d
  | _, _ => false

/-- The copy loop of `dlite_copy_to_flat`: `n` steps remain; read the
element at the current odometer position (through the walking pointer,
always recomputed correctly from `src` after a wrap), append it to the
flat output, and step the odometer. -/

def copyFlatLoop {α : Type} (src : NArr α) (dims : List Nat) :
    Nat → List Nat → Option (List α)
  | 0, _ => some []
  | n + 1, ind =>
      match NArr.getPath ind src with
      | none => none
      | some e =>
          match copyFlatLoop src dims n (odoInc dims ind) with
          | some rest => some (e :: rest)
          | none => none

/-- Shallow embedding of `dlite_copy_to_flat` (dims non-NULL): copy
`ntot` elements of the nested array `src` into a flat C-ordered list.
`none` models undefined behaviour (an out-of-structure read). -/

def dlite_copy_to_flat {α : Type} (src : NArr α) (dims : List Nat) :
    Option (List α) :=
  copyFlatLoop src dims (dimsProd dims) (List.replicate dims.length 0)

/-- The copy loop of `dlite_copy_to_nested`: `n` steps remain, `q` is
the unread tail of the flat source, `pvalid` whether the walking
pointer still points into `dst` — after every wrap of the innermost
index the C recomputes it with `p = (void **)src` from the FLAT source
buffer, so a later dereference is undefined behaviour (`none`). -/

def copyNestedLoop {α : Type} (dims : List Nat) :
    Nat → List α → List Nat → Bool → NArr α → Option (NArr α)
  | 0, _, _, _, dst => some dst
  | n + 1, q, ind, pvalid, dst =>
      if pvalid then
        match q with
        | [] => none
        | e :: q2 =>
            match NArr.setPath ind dst e with
            | none => none
            | some dst2 =>
                copyNestedLoop dims n q2 (odoInc dims ind)
                  (pvalid && !odoWraps dims ind) dst2
      else none

/-- Shallow embedding of `dlite_copy_to_nested` (dims non-NULL): copy a
flat C-ordered buffer `src` into the nested array `dst`.  `none` models
undefined behaviour. -/

def dlite_copy_to_nested {α : Type} (dst : NArr α) (src : List α)
    (dims : List Nat) : Option (NArr α) :=
  copyNestedLoop dims (dimsProd dims) src (List.replicate dims.length 0) true dst

theorem tolowerByte_idem (b : Nat) : tolowerByte (tolowerByte b) = tolowerByte b := by
  unfold tolowerByte
  split
  · simp_all; omega
  · simp_all

theorem map_tolowerByte_idem (s : CStr) :
    (s.map tolowerByte).map tolowerByte = s.map tolowerByte := by
  induction s with
  | nil => rfl
  | cons b t ih => simp [tolowerByte_idem, ih]

theorem tolowerN_of_length_le {s : CStr} {n : Nat} (h : s.length ≤ n) :
    tolowerN n s = s.map tolowerByte := by
  unfold tolowerN
  rw [List.take_of_length_le h, List.drop_eq_nil_of_le h, List.append_nil]

theorem uuid_from_string_ok_length {s : CStr} (h : uuid_from_string_ok s = true) :
    s.length = UUID_LEN := by
  unfold uuid_from_string_ok at h
  exact of_decide_eq_true (Bool.and_elim_left h)

/-- C1: For every call `get_uuid(buff, id)`: if `id` is NULL or empty, a
random version-4 UUID is written and 4 is returned; if `id` is a
canonical 36-character UUID string `U`, 0 is returned and `buff` holds
`lower(U)`; otherwise 5 is returned and `buff` holds the version-5
SHA-1 UUID derived from `id` under the DNS namespace (so two calls with
the same non-UUID id write the same string, the model being a function
of `id`); in every non-error case the written UUID is lowercased before
return (mapping `tolower` over the result leaves it unchanged). -/
theorem getuuid_correct (env : UuidEnv)
    (hok : env.v4ok = true) (hv4 : env.v4.length = UUID_LEN)
    (hsha : ∀ s, (env.sha1 s).length = UUID_LEN) :
    (∀ id0, id0 = none ∨ id0 = some [] →
        dlite_get_uuid env id0 = (4, env.v4.map tolowerByte)) ∧
    (∀ s, uuid_from_string_ok s = true →
        dlite_get_uuid env (some s) = (0, s.map tolowerByte)) ∧
    (∀ s, s ≠ [] → uuid_from_string_ok s = false →
        dlite_get_uuid env (some s) = (5, (env.sha1 s).map tolowerByte)) ∧
    (∀ id0, ((dlite_get_uuid env id0).2).map tolowerByte = (dlite_get_uuid env id0).2) := by
  have hv4' : tolowerN UUID_LEN env.v4 = env.v4.map tolowerByte :=
    tolowerN_of_length_le (le_of_eq hv4)
  refine ⟨?_, ?_, ?_, ?_⟩
  · rintro id0 (rfl | rfl) <;>
      simp [dlite_get_uuid, getuuidn, hok, hv4']
  · intro s hs
    have hlen : s.length = UUID_LEN := uuid_from_string_ok_length hs
    have hne : ¬ s.length = 0 := by rw [hlen]; simp [UUID_LEN]
    have htake : s.take UUID_LEN = s := List.take_of_length_le (le_of_eq hlen)
    simp [dlite_get_uuid, getuuidn, hne, hs, htake,
      tolowerN_of_length_le (le_of_eq hlen)]
  · intro s hne hs
    have hlen : ¬ s.length = 0 := by simpa using hne
    simp [dlite_get_uuid, getuuidn, hlen, hs,
      tolowerN_of_length_le (le_of_eq (hsha s))]
  · intro id0
    match id0 with
    | none => simp [dlite_get_uuid, getuuidn, hv4', map_tolowerByte_idem, tolowerByte_idem]
    | some s =>
      by_cases h0 : s.length = 0
      · simp [dlite_get_uuid, getuuidn, h0, hv4', map_tolowerByte_idem, tolowerByte_idem]
      · by_cases hu : uuid_from_string_ok s
        · have hlen : s.length = UUID_LEN := uuid_from_string_ok_length hu
          have htake : s.take UUID_LEN = s := List.take_of_length_le (le_of_eq hlen)
          simp [dlite_get_uuid, getuuidn, h0, hu, htake,
            tolowerN_of_length_le (le_of_eq hlen), map_tolowerByte_idem, tolowerByte_idem]
        · simp [dlite_get_uuid, getuuidn, h0, hu,
            tolowerN_of_length_le (le_of_eq (hsha s)), map_tolowerByte_idem, tolowerByte_idem]

/-- Witness for C1 at concrete inputs: a non-UUID name gets the
(lowercased) version-5 UUID with tag 5, and an uppercase canonical UUID
is copied lowercased with tag 0. -/
theorem getuuid_correct_witness :
    dlite_get_uuid uuidEnvC (some (bytes "myinst")) =
      (5, bytes "8c942973-66a3-5be1-a75a-14c2d0a6f6a8") ∧
    dlite_get_uuid uuidEnvC (some (bytes "F81D4FAE-7DEC-41D0-A765-00A0C91E6BF6")) =
      (0, bytes "f81d4fae-7dec-41d0-a765-00a0c91e6bf6") := by
  have h := getuuid_correct uuidEnvC rfl (by decide)
    (fun _ => show (bytes "8C942973-66A3-5BE1-A75A-14C2D0A6F6A8").length = UUID_LEN by decide)
  constructor
  · rw [h.2.2.1 (bytes "myinst") (by decide) (by decide)]
    decide
  · rw [h.2.1 (bytes "F81D4FAE-7DEC-41D0-A765-00A0C91E6BF6") (by decide)]
    decide

theorem lastSlashIdx_of_not_mem {s : CStr} (h : slashB ∉ s) :
    lastSlashIdx s = none := by
  induction s with
  | nil => rfl
  | cons b t ih =>
    have hb : b ≠ slashB := fun hb => h (hb ▸ List.mem_cons_self b t)
    have ht : slashB ∉ t := fun ht => h (List.mem_cons_of_mem b ht)
    simp [lastSlashIdx, ih ht, hb]

theorem lastSlashIdx_append_slash (s t : CStr) (h : slashB ∉ t) :
    lastSlashIdx (s ++ (slashB :: t)) = some s.length := by
  induction s with
  | nil => simp [lastSlashIdx, lastSlashIdx_of_not_mem h]
  | cons b u ih => simp [lastSlashIdx, ih]

theorem scanBack_stop (s : CStr) (b k : Nat) (hb : s.getD b 0 = slashB)
    (hk : ∀ j, b < j → j ≤ b + k → s.getD j 0 ≠ slashB) :
    scanBack s (b + k) = b := by
  induction k with
  | zero =>
    match b with
    | 0 => rfl
    | q + 1 =>
      show scanBack s (q + 1 + 0) = q + 1
      rw [Nat.add_zero]
      unfold scanBack
      rw [if_pos hb]
  | succ k ih =>
    have hne : s.getD (b + k + 1) 0 ≠ slashB :=
      hk (b + k + 1) (by omega) (by omega)
    have : b + (k + 1) = (b + k) + 1 := by omega
    rw [this]
    simp only [scanBack, if_neg hne]
    exact ih (fun j hj hj' => hk j hj (by omega))

theorem scanBack_zero (s : CStr) (m : Nat)
    (h : ∀ j, 1 ≤ j → j ≤ m → s.getD j 0 ≠ slashB) :
    scanBack s m = 0 := by
  induction m with
  | zero => rfl
  | succ m ih =>
    simp only [scanBack, if_neg (h (m + 1) (by omega) (by omega))]
    exact ih (fun j hj hj' => h j hj (by omega))

theorem lastSlashIdx_spec {s : CStr} {p : Nat} (h : lastSlashIdx s = some p) :
    p < s.length ∧ s.getD p 0 = slashB := by
  induction s generalizing p with
  | nil => simp [lastSlashIdx] at h
  | cons b t ih =>
    simp only [lastSlashIdx] at h
    cases ht : lastSlashIdx t with
    | some i =>
      rw [ht] at h
      obtain rfl : i + 1 = p := by simpa using h
      obtain ⟨h1, h2⟩ := ih ht
      exact ⟨by simpa using h1, by simpa using h2⟩
    | none =>
      rw [ht] at h
      by_cases hb : b = slashB
      · obtain rfl : 0 = p := by simpa [hb] using h
        exact ⟨by simp, by simpa using hb⟩
      · simp [hb] at h

theorem two_slash_le_count {s : CStr} {i j : Nat} (hij : i < j)
    (hj : j < s.length) (hi : s.getD i 0 = slashB) (hjs : s.getD j 0 = slashB) :
    2 ≤ s.count slashB := by
  have hi' : i < s.length := lt_trans hij hj
  have hmem : slashB ∈ s.take j := by
    have htk : i < (s.take j).length := by simp; omega
    have : (s.take j).getD i 0 = s.getD i 0 := by
      rw [List.getD_eq_getElem _ _ htk, List.getD_eq_getElem _ _ hi']
      exact List.getElem_take s
    rw [List.getD_eq_getElem _ _ htk] at this
    rw [hi] at this
    exact this ▸ (s.take j).getElem_mem htk
  have hsub1 : List.Sublist [slashB] (s.take j) := List.singleton_sublist.mpr hmem
  have hdrop : s.drop j = slashB :: s.drop (j + 1) := by
    rw [List.drop_eq_getElem_cons hj]
    congr 1
    rw [List.getD_eq_getElem _ _ hj] at hjs
    exact hjs
  have hsub2 : List.Sublist [slashB] (s.drop j) := by
    rw [hdrop]
    exact (List.nil_sublist _).cons₂ slashB
  have hsub : List.Sublist [slashB, slashB] (s.take j ++ s.drop j) :=
    List.Sublist.append hsub1 hsub2
  rw [List.take_append_drop] at hsub
  exact List.duplicate_iff_two_le_count.mp (List.duplicate_iff_sublist.mpr hsub)

/-- Counterexample to C5 as stated: the uri "/name" contains fewer than
two slash separators, yet `dlite_split_metadata` does not fail with a
non-zero return on it — the last slash is the first byte, both
separator checks are passed, and the namespace extraction calls
`memcpy` with a negative size (undefined behaviour). -/
theorem split_metadata_claim_counterexample :
    (bytes "/name").count slashB < 2 ∧
    dlite_split_metadata (bytes "/name") ≠ SplitResult.err ∧
    dlite_split_metadata (bytes "/name") = SplitResult.crash := by
  decide

/-- C5 (amended): for all non-empty strings n, v, ns containing no '/',
`dlite_split_metadata` applied to `dlite_join_metadata(n, v, ns)`
succeeds and yields name n, version v and namespace ns; and
`dlite_split_metadata` fails (returns non-zero) on any uri containing
fewer than two '/' separators whose first byte is not a '/'; a uri with
fewer than two separators that starts with '/' (its only slash being the
first byte) instead reaches undefined behaviour: the namespace copy is
attempted with negative size. -/
theorem split_join_metadata (n v ns : CStr)
    (hn : n ≠ []) (hv : v ≠ []) (hns : ns ≠ [])
    (hn' : slashB ∉ n) (hv' : slashB ∉ v) (hns' : slashB ∉ ns) :
    dlite_split_metadata (dlite_join_metadata n v ns) = SplitResult.ok n v ns ∧
    (∀ s : CStr, s.count slashB < 2 → s.head? ≠ some slashB →
      dlite_split_metadata s = SplitResult.err) ∧
    (∀ s : CStr, s.count slashB < 2 → s.head? = some slashB →
      dlite_split_metadata s = SplitResult.crash) := by
  refine ⟨?_, ?_, ?_⟩
  · -- round trip
    have hre : dlite_join_metadata n v ns = (ns ++ slashB :: v) ++ slashB :: n := by
      simp [dlite_join_metadata]
    set s : CStr := (ns ++ slashB :: v) ++ slashB :: n with hs
    have hp : lastSlashIdx s = some (ns.length + 1 + v.length) := by
      rw [hs, lastSlashIdx_append_slash (ns ++ slashB :: v) n hn']
      congr 1
      simp only [List.length_append, List.length_cons]
      omega
    have hgetns : s.getD ns.length 0 = slashB := by
      rw [hs, List.append_assoc, List.getD_append_right _ _ _ _ (le_refl _)]
      simp
    have hnoslash : ∀ j, ns.length < j → j ≤ ns.length + v.length →
        s.getD j 0 ≠ slashB := by
      intro j hj1 hj2
      have hj3 : ns.length ≤ j := le_of_lt hj1
      rw [hs, List.append_assoc, List.getD_append_right _ _ _ _ hj3]
      have hsub : j - ns.length = (j - ns.length - 1) + 1 := by omega
      rw [hsub, List.cons_append, List.getD_cons_succ,
          List.getD_append _ _ _ _ (by omega)]
      intro hcon
      have hlt : j - ns.length - 1 < v.length := by omega
      rw [List.getD_eq_getElem _ _ hlt] at hcon
      exact hv' (hcon ▸ v.getElem_mem hlt)
    have hq : scanBack s (ns.length + v.length) = ns.length :=
      scanBack_stop s ns.length v.length hgetns
        (fun j hj hj' => hnoslash j hj hj')
    have hplen : ns.length + 1 + v.length ≠ 0 := by
      have := List.length_pos.mpr hns
      omega
    have hnslen : ns.length ≠ 0 := fun h => hns (List.length_eq_zero.mp h)
    rw [hre, dlite_split_metadata, hp]
    simp only [hplen, if_false, reduceIte]
    have harith : ns.length + 1 + v.length - 1 = ns.length + v.length := by omega
    rw [harith, hq]
    simp only [hnslen, if_false, reduceIte]
    have hname : s.drop (ns.length + 1 + v.length + 1) = n := by
      rw [hs, show (ns ++ slashB :: v) ++ slashB :: n =
            ((ns ++ slashB :: v) ++ [slashB]) ++ n by simp]
      exact List.drop_left' (by simp; omega)
    have hver : (s.drop (ns.length + 1)).take
        (ns.length + v.length - ns.length) = v := by
      have hdrop : s.drop (ns.length + 1) = v ++ slashB :: n := by
        rw [hs, show (ns ++ slashB :: v) ++ slashB :: n =
              (ns ++ [slashB]) ++ (v ++ slashB :: n) by simp]
        exact List.drop_left' (by simp)
      rw [hdrop, show ns.length + v.length - ns.length = v.length by omega]
      exact List.take_left' rfl
    have hnsp : s.take ns.length = ns := by
      rw [hs, List.append_assoc]
      exact List.take_left' rfl
    rw [hname, hver, hnsp]
  · -- failure on fewer than two separators, first byte not a slash
    intro s hcount hhead
    cases hlast : lastSlashIdx s with
    | none => simp [dlite_split_metadata, hlast]
    | some p =>
      obtain ⟨hplen, hpslash⟩ := lastSlashIdx_spec hlast
      have hp0 : p ≠ 0 := by
        intro hp
        match s, hplen with
        | a :: t, _ =>
          apply hhead
          rw [List.head?_cons]
          rw [hp] at hpslash
          rw [List.getD_cons_zero] at hpslash
          rw [hpslash]
      have hzero : scanBack s (p - 1) = 0 := by
        apply scanBack_zero
        intro j hj1 hj2 hjslash
        have : 2 ≤ s.count slashB :=
          two_slash_le_count (show j < p by omega) hplen hjslash hpslash
        omega
      rw [dlite_split_metadata, hlast]
      simp only [hp0, if_false, reduceIte]
      rw [hzero]
      simp
  · -- fewer than two separators, first byte a slash: undefined behaviour
    intro s hcount hhead
    match s with
    | b :: t =>
      have hb : b = slashB := by simpa using hhead
      subst hb
      have hcnt : t.count slashB = 0 := by
        rw [List.count_cons_self] at hcount
        omega
      have hnot : slashB ∉ t := List.count_eq_zero.mp hcnt
      have hlast : lastSlashIdx (slashB :: t) = some 0 := by
        simp [lastSlashIdx, lastSlashIdx_of_not_mem hnot]
      rw [dlite_split_metadata, hlast]
      simp

/-- Witness for C5 (amended) at concrete inputs: the round trip on
("entity", "0.3", "meta"), the error on "nosep" and on "a/b", and the
undefined-behaviour case on "/name". -/
theorem split_join_metadata_witness :
    dlite_split_metadata (dlite_join_metadata (bytes "entity") (bytes "0.3") (bytes "meta")) =
      SplitResult.ok (bytes "entity") (bytes "0.3") (bytes "meta") ∧
    dlite_split_metadata (bytes "a/b") = SplitResult.err ∧
    dlite_split_metadata (bytes "/name") = SplitResult.crash := by
  have h := split_join_metadata (bytes "entity") (bytes "0.3") (bytes "meta")
    (by decide) (by decide) (by decide) (by decide) (by decide) (by decide)
  exact ⟨h.1, h.2.1 (bytes "a/b") (by decide) (by decide),
    h.2.2 (bytes "/name") (by decide) (by decide)⟩

theorem propNmemb_eq_prod (dims : List Nat) (p : DLiteProperty) :
    propNmemb dims p = (p.dims.map (fun j => dims.getD j 0)).prod := by
  rw [propNmemb, List.prod_eq_foldl, List.foldl_map]

/-- C2: for every successful `dlite_instance_create(e, dims, id)` (with
`dims` supplying one size per entity dimension) the returned instance's
uuid is the one derived from `id`; its uri is a copy of `id` exactly
when the uuid was version-5 generated; its dimension slots equal
`dims`; every property with `ndims > 0` holds a zero-initialised heap
array of `(∏ k, dims[prop.dims[k]]) * prop.size` bytes; and every
scalar property slot is zero (`size` zero bytes inline). -/
theorem instance_create_correct (meta : DLiteEntity) (dims : List Nat)
    (id : Option CStr) (env : UuidEnv) (inst : DLiteInstance) (meta' : DLiteEntity)
    (h : dlite_instance_create meta dims id env = some (inst, meta'))
    (hdims : dims.length = meta.dimensions.length) :
    inst.uuid = (dlite_get_uuid env id).2 ∧
    ((dlite_get_uuid env id).1 = 5 → inst.uri = id) ∧
    ((dlite_get_uuid env id).1 ≠ 5 → inst.uri = none) ∧
    inst.dims = dims ∧
    inst.propvals.length = meta.properties.length ∧
    (∀ i, (hi : i < meta.properties.length) →
      (meta.properties[i].dims ≠ [] →
        inst.propvals[i]? = some (DLitePropVal.array
          (List.replicate
            ((meta.properties[i].dims.map (fun j => dims.getD j 0)).prod *
              meta.properties[i].size) 0))) ∧
      (meta.properties[i].dims = [] →
        inst.propvals[i]? = some (DLitePropVal.scalar
          (List.replicate meta.properties[i].size 0)))) := by
  rw [dlite_instance_create] at h
  by_cases hv : (dlite_get_uuid env id).1 < 0
  · rw [if_pos hv] at h
    exact Option.noConfusion h
  · rw [if_neg hv] at h
    simp only [Option.some.injEq, Prod.mk.injEq] at h
    obtain ⟨hinst, -⟩ := h
    subst hinst
    refine ⟨rfl, ?_, ?_, ?_, by simp, ?_⟩
    · intro h5; simp [h5]
    · intro h5; simp [h5]
    · simp [List.take_of_length_le (le_of_eq hdims)]
    · intro i hi
      constructor
      · intro hne
        simp [List.getElem?_map, List.getElem?_eq_getElem hi, hne,
          propNmemb_eq_prod]
      · intro hemp
        simp [List.getElem?_map, List.getElem?_eq_getElem hi, hemp]

/-- Witness for C2: creating an instance of `entC` with dims (3, 2) and
the version-5 id "abc" yields exactly `instC` (uri kept, dimension
slots (3, 2), a 4-byte zero scalar slot and a zeroed 3*2*8-byte heap
array), with the entity refcount bumped to 2. -/
theorem instance_create_correct_witness :
    dlite_instance_create entC [3, 2] (some (bytes "abc")) uuidEnvC =
      some (instC, { entC with refcount := 2 }) ∧
    instC.uri = some (bytes "abc") ∧
    instC.propvals[1]? = some (DLitePropVal.array (List.replicate 48 0)) := by
  have hcr : dlite_instance_create entC [3, 2] (some (bytes "abc")) uuidEnvC =
      some (instC, { entC with refcount := 2 }) := by decide
  have h := instance_create_correct entC [3, 2] (some (bytes "abc")) uuidEnvC
    instC { entC with refcount := 2 } hcr (by decide)
  refine ⟨hcr, h.2.1 (by decide), ?_⟩
  exact ((h.2.2.2.2.2 1 (by decide)).1 (by decide)).trans (by decide)

/-- C3: a successful `dlite_instance_create` leaves the entity refcount
at `r + 1`, and `dlite_instance_free` of that instance brings it back to
`r`, so every create/free pair restores the entity refcount to its
pre-create value. -/
theorem create_free_refcount (meta : DLiteEntity) (dims : List Nat)
    (id : Option CStr) (env : UuidEnv) (inst : DLiteInstance) (meta' : DLiteEntity)
    (h : dlite_instance_create meta dims id env = some (inst, meta')) :
    meta'.refcount = meta.refcount + 1 ∧
    (dlite_instance_free inst meta').1 = meta.refcount := by
  rw [dlite_instance_create] at h
  by_cases hv : (dlite_get_uuid env id).1 < 0
  · rw [if_pos hv] at h
    exact Option.noConfusion h
  · rw [if_neg hv] at h
    simp only [Option.some.injEq, Prod.mk.injEq] at h
    obtain ⟨-, hmeta⟩ := h
    subst hmeta
    refine ⟨rfl, ?_⟩
    simp only [dlite_instance_free, dlite_meta_decref]
    split <;> simp

/-- Witness for C3: the create/free pair on `entC` (refcount 1) passes
through 2 and returns to 1. -/
theorem create_free_refcount_witness :
    ({ entC with refcount := 2 } : DLiteEntity).refcount = entC.refcount + 1 ∧
    (dlite_instance_free instC { entC with refcount := 2 }).1 = entC.refcount := by
  exact create_free_refcount entC [3, 2] (some (bytes "abc")) uuidEnvC
    instC { entC with refcount := 2 } (by decide)

/-- C7 (code evaluated at the failing input): for an entity with two
dimensions but a single property, the instance created with dims
(3, 4) binds dimension 1 (name "nb") to 4, yet both
`dlite_instance_get_dimension_size_by_index(inst, 1)` and
`dlite_instance_get_dimension_size(inst, "nb")` return -1, because the
source checks the index against `nproperties` instead of
`ndimensions`; index 0 (below `nproperties`) is still served. -/
theorem instance_get_dimension_size_bug :
    (dlite_instance_create entC7 [3, 4] none uuidEnvC).map
        (fun r => (dlite_instance_get_dimension_size_by_index r.1 1,
                   dlite_instance_get_dimension_size r.1 (bytes "nb"),
                   r.1.dims.getD 1 0,
                   dlite_instance_get_dimension_size_by_index r.1 0)) =
      some (-1, -1, 4, 3) := by
  decide

/-- C4 (code evaluated against the claim): when the driver lacks
`getEntity` the load fails with the capability error as claimed, but
when the driver has it the guard `uuidver != 0 || uuidver != 5` is a
tautology, so `dlite_entity_load` returns the id error for every id —
it never dispatches to `getEntity`, contrary to the claim. -/
theorem entity_load_never_dispatches (env : UuidEnv) (id : Option CStr) :
    dlite_entity_load false env id = EntityLoadResult.errNoGetEntity ∧
    dlite_entity_load true env id = EntityLoadResult.errBadId := by
  constructor
  · rfl
  · rw [dlite_entity_load]
    have htaut : (dlite_get_uuid env id).1 ≠ 0 ∨ (dlite_get_uuid env id).1 ≠ 5 := by
      by_cases h0 : (dlite_get_uuid env id).1 = 0
      · right; rw [h0]; decide
      · left; exact h0
    simp [htaut]

theorem copyProp_snd_ge (c : Nat) (q : OwnProperty) : c ≤ (copyProp c q).2 := by
  rw [copyProp]
  cases q.description <;> cases q.unit <;>
    by_cases h : q.dimsVal.length ≠ 0 <;>
      simp [strdupC, strdupOptC, h] <;> omega

theorem copyProp_ptrs_ge (c : Nat) (q : OwnProperty) :
    ∀ t ∈ propPtrs (copyProp c q).1, c ≤ t := by
  rw [copyProp]
  cases hd : q.description <;> cases hu : q.unit <;>
    by_cases h : q.dimsVal.length ≠ 0 <;>
      simp [strdupC, strdupOptC, h, propPtrs] <;> omega

theorem copyProp_vals (c : Nat) (q : OwnProperty) :
    propVals (copyProp c q).1 = propVals q := by
  rw [copyProp]
  cases hd : q.description <;> cases hu : q.unit <;>
    by_cases h : q.dimsVal.length ≠ 0 <;>
      simp [strdupC, strdupOptC, h, propVals, hd, hu]

theorem copyProps_snd_ge (c : Nat) (ps : List OwnProperty) :
    c ≤ (copyProps c ps).2 := by
  induction ps generalizing c with
  | nil => simp [copyProps]
  | cons q rest ih =>
    have h1 := copyProp_snd_ge c q
    have h2 := ih (copyProp c q).2
    simp only [copyProps]
    omega

theorem copyProps_ptrs_ge (c : Nat) (ps : List OwnProperty) :
    ∀ p ∈ (copyProps c ps).1, ∀ t ∈ propPtrs p, c ≤ t := by
  induction ps generalizing c with
  | nil => simp [copyProps]
  | cons q rest ih =>
    intro p hp t ht
    simp only [copyProps, List.mem_cons] at hp
    cases hp with
    | inl h =>
      subst h
      exact copyProp_ptrs_ge c q t ht
    | inr h =>
      have := ih (copyProp c q).2 p h t ht
      have := copyProp_snd_ge c q
      omega

theorem copyProps_vals (c : Nat) (ps : List OwnProperty) :
    (copyProps c ps).1.map propVals = ps.map propVals := by
  induction ps generalizing c with
  | nil => simp [copyProps]
  | cons q rest ih =>
    simp only [copyProps, List.map_cons]
    rw [copyProp_vals, ih]

/-- Counterexample to C9 as stated: for a caller dimension whose name
string lives at address 100, the entity returned by
`dlite_entity_create` holds that very address in its dimension entry —
the dimension's name string is shared with the caller, not an
independently owned copy (and `dlite_meta_clear` indeed never frees
dimension name/description strings). -/
theorem entity_create_shares_dimension_strings :
    ((dlite_entity_create_copies
        [{ name := ⟨100, bytes "na"⟩, description := none }] [] 1000).1.map
      (fun d => d.name.ptr)) = [100] ∧
    (100 : Nat) ∈ callerPtrs
      [{ name := ⟨100, bytes "na"⟩, description := none }] [] := by
  constructor
  · rfl
  · simp [callerPtrs, dimPtrs]

/-- C9 (amended): after `dlite_entity_create`, the property vector is
deeply copied — every address the copied properties reference (name,
description and unit strings, `dims[]` arrays) is fresh, disjoint from
everything the caller's arrays reference, with the contents preserved —
and the dimension array itself is a fresh copy of the caller's structs,
but the name/description string pointers inside the dimension entries
remain the caller's (those strings are shared, not independently
owned). -/
theorem entity_create_ownership (dims : List OwnDimension)
    (props : List OwnProperty) (c0 : Nat)
    (hc : ∀ x ∈ callerPtrs dims props, x < c0) :
    ((dlite_entity_create_copies dims props c0).2.map propVals =
      props.map propVals) ∧
    (∀ p ∈ (dlite_entity_create_copies dims props c0).2, ∀ t ∈ propPtrs p,
      t ∉ callerPtrs dims props) ∧
    ((dlite_entity_create_copies dims props c0).1 = dims) := by
  refine ⟨copyProps_vals c0 props, ?_, rfl⟩
  intro p hp t ht hmem
  have h1 : c0 ≤ t := copyProps_ptrs_ge c0 props p hp t ht
  have h2 : t < c0 := hc t hmem
  omega

/-- Witness for C9 (amended) at a concrete input: one dimension and one
array property with all caller strings below address 10; contents are
preserved, the copied property references no caller address, and the
dimension entry still carries caller address 1. -/
theorem entity_create_ownership_witness :
    (∀ x ∈ callerPtrs
        [{ name := ⟨1, bytes "na"⟩, description := none }]
        [{ name := ⟨2, bytes "arr"⟩, type := DLiteType.dliteFloat, size := 8,
           dimsPtr := 3, dimsVal := [0], description := none,
           unit := some ⟨4, bytes "m"⟩ }], x < 10) ∧
    (∀ p ∈ (dlite_entity_create_copies
        [{ name := ⟨1, bytes "na"⟩, description := none }]
        [{ name := ⟨2, bytes "arr"⟩, type := DLiteType.dliteFloat, size := 8,
           dimsPtr := 3, dimsVal := [0], description := none,
           unit := some ⟨4, bytes "m"⟩ }] 10).2, ∀ t ∈ propPtrs p,
      t ∉ callerPtrs
        [{ name := ⟨1, bytes "na"⟩, description := none }]
        [{ name := ⟨2, bytes "arr"⟩, type := DLiteType.dliteFloat, size := 8,
           dimsPtr := 3, dimsVal := [0], description := none,
           unit := some ⟨4, bytes "m"⟩ }]) := by
  refine ⟨by decide, ?_⟩
  exact (entity_create_ownership
    [{ name := ⟨1, bytes "na"⟩, description := none }]
    [{ name := ⟨2, bytes "arr"⟩, type := DLiteType.dliteFloat, size := 8,
       dimsPtr := 3, dimsVal := [0], description := none,
       unit := some ⟨4, bytes "m"⟩ }] 10 (by decide)).2.1

theorem tripletMatches_some_iff (a b c : CStr) (t : XTriplet) :
    tripletMatches (some a) (some b) (some c) t = true ↔
      t.s = a ∧ t.p = b ∧ t.o = c := by
  simp [tripletMatches, tmatch, and_assoc]

theorem tfindFrom_none (l : List XTriplet) (s p o : Option CStr)
    (h : ∀ t ∈ l, tripletMatches s p o t = false) :
    ∀ i, tfindFrom l s p o i = none := by
  have key : ∀ k i, l.length - i ≤ k → tfindFrom l s p o i = none := by
    intro k
    induction k with
    | zero =>
      intro i hk
      rw [tfindFrom]
      have hge : ¬ i < l.length := by omega
      simp [hge]
    | succ k ih =>
      intro i hk
      rw [tfindFrom]
      by_cases hi : i < l.length
      · have hm := h l[i] (l.getElem_mem hi)
        simp only [hi, dif_pos, hm, Bool.false_eq_true, if_false, reduceIte]
        exact ih (i + 1) (by omega)
      · simp [hi]
  exact fun i => key l.length i (by omega)

/-- C10: for every collection and label such that the collection
contains no `(label, _is-a, Instance)` triple,
`dlite_collection_remove` returns non-zero (1) and leaves the
collection — its triple store included — completely unchanged (the
initial removal matches nothing and the dimmap/uuid/meta clearing is
never reached). -/
theorem collection_remove_absent (coll : DLiteCollection) (label : CStr)
    (h : ∀ t ∈ coll.store.triplets,
      ¬(t.s = label ∧ t.p = bytes "_is-a" ∧ t.o = bytes "Instance")) :
    dlite_collection_remove coll label = (1, coll) := by
  have hmatch : ∀ t ∈ coll.store.triplets,
      tripletMatches (some label) (some (bytes "_is-a"))
        (some (bytes "Instance")) t = false := by
    intro t ht
    rw [← Bool.not_eq_true, tripletMatches_some_iff]
    exact h t ht
  rw [dlite_collection_remove]
  simp only [dlite_collection_remove_relations, triplestore_remove]
  have hcnt : (coll.store.triplets.filter
      (fun t => tripletMatches (some label) (some (bytes "_is-a"))
        (some (bytes "Instance")) t)).length = 0 := by
    rw [List.filter_eq_nil_iff.mpr (fun t ht => by simp [hmatch t ht])]
    rfl
  have hkeep : coll.store.triplets.filter
      (fun t => !tripletMatches (some label) (some (bytes "_is-a"))
        (some (bytes "Instance")) t) = coll.store.triplets :=
    List.filter_eq_self.mpr (fun t ht => by simp [hmatch t ht])
  rw [hcnt, hkeep]
  simp

/-- Witness for C10: removing an absent label from a one-triple
collection returns 1 and the unchanged collection. -/
theorem collection_remove_absent_witness :
    dlite_collection_remove
      { uuid := bytes "c1", uri := none,
        store := { triplets := [{ s := bytes "x", p := bytes "likes",
                                  o := bytes "y", id := bytes "0" }],
                   counter := 1 } } (bytes "a") =
    (1, { uuid := bytes "c1", uri := none,
          store := { triplets := [{ s := bytes "x", p := bytes "likes",
                                    o := bytes "y", id := bytes "0" }],
                     counter := 1 } }) := by
  exact collection_remove_absent
    { uuid := bytes "c1", uri := none,
      store := { triplets := [{ s := bytes "x", p := bytes "likes",
                                o := bytes "y", id := bytes "0" }],
                 counter := 1 } } (bytes "a") (by decide)

/-- C6: on a collection with no triple labelled `L`,
`dlite_collection_add(coll, L, inst)` fails exactly when `inst` has no
meta; after a successful add the triples with subject `L` are exactly
`(L, _is-a, Instance)`, `(L, _has-uuid, inst.uuid)` and
`(L, _has-meta, inst.meta.uri)`; and after a subsequent
`dlite_collection_remove(coll, L)` none of these three triples remain
in the store. -/
theorem collection_add_remove (coll : DLiteCollection) (label : CStr)
    (inst : DLiteInstanceHead)
    (hl : ∀ t ∈ coll.store.triplets, t.s ≠ label) :
    (inst.metaUri = none → dlite_collection_add coll label inst = none) ∧
    (∀ muri, inst.metaUri = some muri →
      ∃ coll2, dlite_collection_add coll label inst = some coll2 ∧
        (coll2.store.triplets.filter (fun t => t.s == label)).map
            (fun t => (t.s, t.p, t.o)) =
          [(label, bytes "_is-a", bytes "Instance"),
           (label, bytes "_has-uuid", inst.uuid),
           (label, bytes "_has-meta", muri)] ∧
        (∀ t ∈ ((dlite_collection_remove coll2 label).2).store.triplets,
          (t.s, t.p, t.o) ≠ (label, bytes "_is-a", bytes "Instance") ∧
          (t.s, t.p, t.o) ≠ (label, bytes "_has-uuid", inst.uuid) ∧
          (t.s, t.p, t.o) ≠ (label, bytes "_has-meta", muri))) := by
  constructor
  · intro hnone
    rw [dlite_collection_add, hnone]
  · intro muri hmuri
    set c : Nat := coll.store.counter with hc
    set T1 : XTriplet :=
      { s := label, p := bytes "_is-a", o := bytes "Instance", id := natBytes c }
    set T2 : XTriplet :=
      { s := label, p := bytes "_has-uuid", o := inst.uuid, id := natBytes (c + 1) }
    set T3 : XTriplet :=
      { s := label, p := bytes "_has-meta", o := muri, id := natBytes (c + 2) }
    refine ⟨{ coll with store := { triplets := coll.store.triplets ++ [T1, T2, T3],
                                   counter := c + 3 } }, ?_, ?_, ?_⟩
    · rw [dlite_collection_add, hmuri]
      simp only [dlite_collection_add_relation, triplestore_add, Option.some.injEq]
      simp [List.append_assoc]
    · rw [List.filter_append]
      have h0 : coll.store.triplets.filter (fun t => t.s == label) = [] :=
        List.filter_eq_nil_iff.mpr (fun t ht => by simp [hl t ht])
      rw [h0]
      simp [T1, T2, T3]
    · -- the remove
      have hcollkeep : ∀ (p o : Option CStr),
          coll.store.triplets.filter
            (fun t => !tripletMatches (some label) p o t) = coll.store.triplets := by
        intro p o
        refine List.filter_eq_self.mpr (fun t ht => ?_)
        simp [tripletMatches, tmatch, hl t ht]
      have hcolldrop : ∀ (p o : Option CStr),
          coll.store.triplets.filter
            (fun t => tripletMatches (some label) p o t) = [] := by
        intro p o
        refine List.filter_eq_nil_iff.mpr (fun t ht => ?_)
        simp [tripletMatches, tmatch, hl t ht]
      rw [dlite_collection_remove]
      simp only [dlite_collection_remove_relations, triplestore_remove,
        List.filter_append]
      rw [hcollkeep, hcolldrop]
      have hm1 : tripletMatches (some label) (some (bytes "_is-a"))
          (some (bytes "Instance")) T1 = true := by
        simp [T1, tripletMatches, tmatch]
      have hm2 : tripletMatches (some label) (some (bytes "_is-a"))
          (some (bytes "Instance")) T2 = false := by
        simp only [T2, tripletMatches, tmatch]
        have : ((bytes "_has-uuid") == (bytes "_is-a")) = false := by decide
        simp [this]
      have hm3 : tripletMatches (some label) (some (bytes "_is-a"))
          (some (bytes "Instance")) T3 = false := by
        simp only [T3, tripletMatches, tmatch]
        have : ((bytes "_has-meta") == (bytes "_is-a")) = false := by decide
        simp [this]
      have hfil1 : [T1, T2, T3].filter
          (fun t => !tripletMatches (some label) (some (bytes "_is-a"))
            (some (bytes "Instance")) t) = [T2, T3] := by
        simp [List.filter, hm1, hm2, hm3]
      have hfil1' : ([T1, T2, T3].filter
          (fun t => tripletMatches (some label) (some (bytes "_is-a"))
            (some (bytes "Instance")) t)).length = 1 := by
        simp [List.filter, hm1, hm2, hm3]
      rw [hfil1]
      simp only [List.nil_append]
      have hpos : (List.filter
          (fun t => tripletMatches (some label) (some (bytes "_is-a"))
            (some (bytes "Instance")) t) [T1, T2, T3]).length > 0 := by
        rw [hfil1']
        omega
      rw [if_pos hpos]
      -- the dimmap loop finds nothing
      have hnomap : ∀ t ∈ coll.store.triplets ++ [T2, T3],
          tripletMatches (some label) (some (bytes "_has-dimmap")) none t = false := by
        intro t ht
        rw [List.mem_append] at ht
        cases ht with
        | inl h => simp [tripletMatches, tmatch, hl t h]
        | inr h =>
          simp only [List.mem_cons, List.mem_singleton] at h
          cases h with
          | inl h =>
            subst h
            simp only [T2, tripletMatches, tmatch]
            have : ((bytes "_has-uuid") == (bytes "_has-dimmap")) = false := by decide
            simp [this]
          | inr h =>
            cases h with
            | inl h =>
              subst h
              simp only [T3, tripletMatches, tmatch]
              have : ((bytes "_has-meta") == (bytes "_has-dimmap")) = false := by decide
              simp [this]
            | inr h => cases h
      have hloop : dimmapLoop label
          ((coll.store.triplets ++ [T2, T3]).length + 1)
          { triplets := coll.store.triplets ++ [T2, T3], counter := c + 3 } 0 =
          { triplets := coll.store.triplets ++ [T2, T3], counter := c + 3 } := by
        rw [dimmapLoop, tfindFrom_none _ _ _ _ hnomap 0]
      rw [hloop]
      -- clear _has-uuid, _has-meta, _has-dimmap
      have hm2u : tripletMatches (some label) (some (bytes "_has-uuid")) none T2 = true := by
        simp [T2, tripletMatches, tmatch]
      have hm3u : tripletMatches (some label) (some (bytes "_has-uuid")) none T3 = false := by
        simp only [T3, tripletMatches, tmatch]
        have : ((bytes "_has-meta") == (bytes "_has-uuid")) = false := by decide
        simp [this]
      have hfil2 : [T2, T3].filter
          (fun t => !tripletMatches (some label) (some (bytes "_has-uuid")) none t) =
          [T3] := by
        simp [List.filter, hm2u, hm3u]
      have hm3m : tripletMatches (some label) (some (bytes "_has-meta")) none T3 = true := by
        simp [T3, tripletMatches, tmatch]
      have hfil3 : [T3].filter
          (fun t => !tripletMatches (some label) (some (bytes "_has-meta")) none t) =
          [] := by
        simp [List.filter, hm3m]
      rw [List.filter_append, hcollkeep, hfil2,
          List.filter_append, hcollkeep, hfil3,
          List.append_nil, hcollkeep]
      intro t ht
      have hts := hl t ht
      refine ⟨?_, ?_, ?_⟩ <;>
        · intro hcon
          rw [Prod.mk.injEq, Prod.mk.injEq] at hcon
          exact hts hcon.1

/-- Witness for C6 on an empty collection: adding a meta-less instance
fails; adding instance u1 (meta uri m/0.1/e) under label "a" puts
exactly the three triples in, and removing label "a" leaves none of
them. -/
theorem collection_add_remove_witness :
    dlite_collection_add
      { uuid := bytes "c1", uri := none, store := triplestore_create }
      (bytes "a") { uuid := bytes "u1", metaUri := none } = none ∧
    (∃ coll2, dlite_collection_add
        { uuid := bytes "c1", uri := none, store := triplestore_create }
        (bytes "a") { uuid := bytes "u1", metaUri := some (bytes "m/0.1/e") } =
          some coll2 ∧
      (coll2.store.triplets.filter (fun t => t.s == bytes "a")).map
          (fun t => (t.s, t.p, t.o)) =
        [(bytes "a", bytes "_is-a", bytes "Instance"),
         (bytes "a", bytes "_has-uuid", bytes "u1"),
         (bytes "a", bytes "_has-meta", bytes "m/0.1/e")] ∧
      (∀ t ∈ ((dlite_collection_remove coll2 (bytes "a")).2).store.triplets,
        (t.s, t.p, t.o) ≠ (bytes "a", bytes "_is-a", bytes "Instance") ∧
        (t.s, t.p, t.o) ≠ (bytes "a", bytes "_has-uuid", bytes "u1") ∧
        (t.s, t.p, t.o) ≠ (bytes "a", bytes "_has-meta", bytes "m/0.1/e"))) := by
  have h1 := collection_add_remove
    { uuid := bytes "c1", uri := none, store := triplestore_create }
    (bytes "a") { uuid := bytes "u1", metaUri := none } (by decide)
  have h2 := collection_add_remove
    { uuid := bytes "c1", uri := none, store := triplestore_create }
    (bytes "a") { uuid := bytes "u1", metaUri := some (bytes "m/0.1/e") } (by decide)
  exact ⟨h1.1 rfl, h2.2 (bytes "m/0.1/e") rfl⟩

/-- C8 (code evaluated at the failing input): on the well-formed 2x2
array, `dlite_copy_to_flat` copies all four elements in C order and
returns 0, and `dlite_copy_to_nested` on a rank-1 array of four
elements is its inverse; but `dlite_copy_to_nested` on the 2x2 shape
hits undefined behaviour — after the first row the carry code
recomputes the walking pointer from `src` (the flat buffer, a line
copied from `dlite_copy_to_flat`) instead of `dst`, and the next
`memcpy(*p, ...)` dereferences data bytes as a pointer — so the two
functions are not mutually inverse on ranks above 1. -/
theorem copy_to_nested_bug :
    dlite_copy_to_flat
        (NArr.arr [NArr.ptrs [10, 11], NArr.ptrs [20, 21]]) [2, 2] =
      some [10, 11, 20, 21] ∧
    dlite_copy_to_nested (NArr.ptrs [0, 0, 0, 0]) [10, 11, 20, 21] [4] =
      some (NArr.ptrs [10, 11, 20, 21]) ∧
    dlite_copy_to_flat (NArr.ptrs [10, 11, 20, 21]) [4] =
      some [10, 11, 20, 21] ∧
    dlite_copy_to_nested
        (NArr.arr [NArr.ptrs [0, 0], NArr.ptrs [0, 0]]) [10, 11, 20, 21] [2, 2] =
      (none : Option (NArr Nat)) := by
  refine ⟨rfl, rfl, rfl, rfl⟩

end DLite
